import Mathlib

set_option autoImplicit false

/-!
Shallow embedding of `src/internal/main.go` of coreos-metadata.

Strings are modelled as `List Char`.  The Go standard-library string
operations the program uses (`strings.Split`, `strings.TrimSpace`,
`strings.SplitN`, `strings.Join`) are embedded structurally below.
External collaborators (the per-provider fetchers, the `os`/`user`
calls and the authorized-keys store) are modelled as environment
oracles, and each embedded function additionally returns the trace of
collaborator operations it performed.
-/

namespace CoreosMetadata

/-- Go `strings.Split(s, sep)` specialised to a one-character separator:
split at every occurrence of `c`, keeping empty chunks. -/
def goSplit (c : Char) : List Char → List (List Char)
  | [] => [[]]
  | x :: xs =>
    let r := goSplit c xs
    if x = c then [] :: r
    else (x :: r.headD []) :: r.tail

/-- The ASCII part of Go `unicode.IsSpace`, which is what
`strings.TrimSpace` strips from both ends. -/
def goIsSpace (c : Char) : Bool :=
  c = ' ' || c = '\t' || c = '\n' || c = '\x0b' || c = '\x0c' || c = '\r'

/-- Go `strings.TrimSpace`. -/
def goTrimSpace (s : List Char) : List Char :=
  ((s.dropWhile goIsSpace).reverse.dropWhile goIsSpace).reverse

/-- Split at the first occurrence of `sep`: `some (before, after)` when
`sep` occurs, `none` otherwise. -/
def goCut (sep : Char) : List Char → Option (List Char × List Char)
  | [] => none
  | x :: xs =>
    if x = sep then some ([], xs)
    else
      match goCut sep xs with
      | none => none
      | some (k, v) => some (x :: k, v)

/-- Go `strings.SplitN(s, sep, 2)` for a one-character separator:
either `[s]` (no separator) or `[before, after]` (split at the first one). -/
def goSplitN2 (sep : Char) (s : List Char) : List (List Char) :=
  match goCut sep s with
  | none => [s]
  | some (k, v) => [k, v]

/-- The constant `cmdlineOEMFlag = "coreos.oem.id"` from main.go. -/
def cmdlineOEMFlag : List Char := "coreos.oem.id".toList

/-- One iteration of the loop body of `parseCmdline` in main.go:
`parts := strings.SplitN(strings.TrimSpace(arg), "=", 2)`; when
`parts[0]` is the OEM flag and the token contained an `=`
(`len(parts) == 2`), the recorded value becomes `parts[1]`, otherwise
the accumulator `oem` is kept. -/
def parseCmdlineArg (oem arg : List Char) : List Char :=
  if (goSplitN2 '=' (goTrimSpace arg)).headD [] ≠ cmdlineOEMFlag then oem
  else if (goSplitN2 '=' (goTrimSpace arg)).length = 2 then
    (goSplitN2 '=' (goTrimSpace arg)).getD 1 []
  else oem

/-- `parseCmdline` from main.go: fold the loop body over
`strings.Split(string(cmdline), " ")`, starting from the empty string. -/
def parseCmdline (cmdline : List Char) : List Char :=
  (goSplit ' ' cmdline).foldl parseCmdlineArg []

/-- The value the code can record for one token: `some v` when the token
is an occurrence of the OEM flag carrying an `=` separator, `none`
otherwise (including bare occurrences without `=`). -/
def eqOccurrenceValue (arg : List Char) : Option (List Char) :=
  if (goSplitN2 '=' (goTrimSpace arg)).headD [] = cmdlineOEMFlag
      ∧ (goSplitN2 '=' (goTrimSpace arg)).length = 2 then
    some ((goSplitN2 '=' (goTrimSpace arg)).getD 1 [])
  else none

/-- Modelled from the spec: the value an occurrence of the flag records
according to the spec text, namely the part after the first `=`, or the
empty string when no `=` is present; `none` when the token is not an
occurrence of the flag at all.  Used to state the claims as written, to
be compared with what `parseCmdline` actually computes. -/
def specOccurrenceValue (arg : List Char) : Option (List Char) :=
  if (goSplitN2 '=' (goTrimSpace arg)).headD [] = cmdlineOEMFlag then
    if (goSplitN2 '=' (goTrimSpace arg)).length = 2 then
      some ((goSplitN2 '=' (goTrimSpace arg)).getD 1 [])
    else some []
  else none

/-- Modelled from the spec: the value of the last occurrence of the flag
under the spec's reading (bare occurrences record the empty string);
empty when the flag never occurs. -/
def specLastOccurrenceValue (cmdline : List Char) : List Char :=
  ((goSplit ' ' cmdline).filterMap specOccurrenceValue).getLastD []

/-- Whether the OEM flag occurs (with or without `=`) in the
boot-parameter string. -/
def keyAppears (cmdline : List Char) : Bool :=
  (goSplit ' ' cmdline).any fun arg =>
    (goSplitN2 '=' (goTrimSpace arg)).headD [] = cmdlineOEMFlag

/-- Modelled from the spec: `providers.Metadata` (the providers package
is not under src/, only its use in main.go is visible): an attribute map
from names to string values, listed in the iteration order the runtime
chooses for this run, and the SSH key list, `none` for the absent state
(`nil` in Go). -/
structure Metadata where
  attributes : List (List Char × List Char)
  sshKeys : Option (List (List Char))
deriving DecidableEq

/-- Filesystem operations `writeMetadataAttributes` can perform. -/
inductive FsOp where
  | mkdirAll (dir : List Char)
  | create (p : List Char)
  | write (chunk : List Char)
deriving DecidableEq

/-- How an embedded function ends: normal return, returned error
(`error` value in Go), or direct process exit (`os.Exit`). -/
inductive Outcome where
  | ok
  | errReturn (msg : List Char)
  | exited (code : Nat)
deriving DecidableEq

/-- Oracle for the OS calls of the materializer: whether `os.MkdirAll`,
`os.Create` and `fmt.Fprintf` succeed. -/
structure FsEnv where
  mkdirOk : List Char → Bool
  createOk : List Char → Bool
  writeOk : List Char → Bool

/-- Result of the materializer: outcome, the trace of filesystem
operations performed, the bytes written to the output file, and the
metadata value as left behind by the call. -/
structure AttrResult where
  outcome : Outcome
  ops : List FsOp
  fileContent : List Char
  metadata : Metadata
deriving DecidableEq

/-- Go `path.Dir`, without the `path.Clean` normalisation (no claim
depends on the directory string itself): the part before the final
slash, `.` for slash-free paths, `/` when the final slash is leading. -/
def pathDir (p : List Char) : List Char :=
  match p.reverse.dropWhile (fun c => c != '/') with
  | [] => ['.']
  | _ :: [] => ['/']
  | _ :: rest => rest.reverse

/-- `writeVariable` from main.go: when `len(value) > 0`, print the line
`COREOS_<key>=<value>\n` to the open file; `some chunk` models a
successful write of `chunk`, `none` the skip of an empty value, and the
error case a failed `fmt.Fprintf`. -/
def writeVariable (env : FsEnv) (key value : List Char) :
    Except (List Char) (Option (List Char)) :=
  if value.length > 0 then
    if env.writeOk ("COREOS_".toList ++ key ++ '=' :: (value ++ ['\n'])) then
      Except.ok (some ("COREOS_".toList ++ key ++ '=' :: (value ++ ['\n'])))
    else Except.error "write error".toList
  else Except.ok none

/-- The `for key, value := range metadata.Attributes` loop of
`writeMetadataAttributes`: iterate the map in this run's iteration
order, appending each written chunk to the file content and to the op
trace, and returning the first write error. -/
def writeAttrLoop (env : FsEnv) (metadata : Metadata) :
    List (List Char × List Char) → List Char → List FsOp → AttrResult
  | [], content, ops => ⟨Outcome.ok, ops, content, metadata⟩
  | (k, v) :: rest, content, ops =>
    match writeVariable env k v with
    | Except.error e => ⟨Outcome.errReturn e, ops, content, metadata⟩
    | Except.ok none => writeAttrLoop env metadata rest content ops
    | Except.ok (some chunk) =>
      writeAttrLoop env metadata rest (content ++ chunk) (ops ++ [FsOp.write chunk])

/-- `writeMetadataAttributes` from main.go: no-op on an unset path;
otherwise `os.MkdirAll(path.Dir(attributes), 0755)` and
`os.Create(attributes)`, each exiting the process with code 1 on
failure, then the attribute loop. -/
def writeMetadataAttributes (env : FsEnv) (attributes : List Char)
    (metadata : Metadata) : AttrResult :=
  if attributes = [] then ⟨Outcome.ok, [], [], metadata⟩
  else if ¬ env.mkdirOk (pathDir attributes) then
    ⟨Outcome.exited 1, [FsOp.mkdirAll (pathDir attributes)], [], metadata⟩
  else if ¬ env.createOk attributes then
    ⟨Outcome.exited 1,
      [FsOp.mkdirAll (pathDir attributes), FsOp.create attributes], [], metadata⟩
  else
    writeAttrLoop env metadata metadata.attributes []
      [FsOp.mkdirAll (pathDir attributes), FsOp.create attributes]

/-- Declarative description of the emitted lines: one line
`COREOS_<key>=<value>` per attribute with non-empty value, in iteration
order, and no line for attributes with empty values. -/
def attrLines (attrs : List (List Char × List Char)) : List (List Char) :=
  attrs.filterMap fun kv =>
    if kv.2 = [] then none
    else some ("COREOS_".toList ++ kv.1 ++ '=' :: kv.2)

/-- Join lines with a terminating newline after each. -/
def unlines (ls : List (List Char)) : List Char :=
  ls.foldr (fun l acc => l ++ '\n' :: acc) []

/-- The chunks recorded as written in an op trace. -/
def writtenChunks (ops : List FsOp) : List (List Char) :=
  ops.filterMap fun op =>
    match op with
    | FsOp.write c => some c
    | _ => none

/-- An environment in which every OS call succeeds. -/
def envAllOk : FsEnv := ⟨fun _ => true, fun _ => true, fun _ => true⟩

/-- The example map { A: x, B: "", C: y } from the spec, in one
iteration order. -/
def mdABC : Metadata :=
  ⟨[("A".toList, "x".toList), ("B".toList, []), ("C".toList, "y".toList)], none⟩

/-- The map { A: x, C: y } iterated as [A, C]. -/
def mdAC : Metadata :=
  ⟨[("A".toList, "x".toList), ("C".toList, "y".toList)], none⟩

/-- The map { A: x, C: y } iterated as [C, A]. -/
def mdCA : Metadata :=
  ⟨[("C".toList, "y".toList), ("A".toList, "x".toList)], none⟩

/-- A concrete output path. -/
def outPath : List Char := "/run/metadata".toList

/-- Modelled from the spec: the system user record that `user.Lookup`
resolves (external collaborator); only its identity matters to
main.go, which passes it through to the store. -/
structure GoUser where
  username : List Char
deriving DecidableEq

/-- Operations against the user database and the authorized-keys store
performed by `writeMetadataKeys`. -/
inductive KeyOp where
  | lookup (name : List Char)
  | akdOpen (usr : GoUser) (create : Bool)
  | add (label : List Char) (content : List Char) (replace : Bool) (force : Bool)
  | sync
  | close
deriving DecidableEq

/-- Oracle for the installer's collaborators: `user.Lookup` returns a
user record or an error message; `authorized_keys_d.Open`, `Add` and
`Sync` either succeed (`none`) or fail with an error (`some e`). -/
structure KeysEnv where
  lookup : List Char → Except (List Char) GoUser
  openErr : GoUser → Option (List Char)
  addErr : Option (List Char)
  syncErr : Option (List Char)

/-- Result of the installer: outcome, trace of user-database and store
operations, and the metadata value as left behind by the call. -/
structure KeysResult where
  outcome : Outcome
  ops : List KeyOp
  metadata : Metadata
deriving DecidableEq

/-- `writeMetadataKeys` from main.go: no-op when the username is unset
or `metadata.SshKeys` is `nil`; otherwise `user.Lookup` (error wrapped
as `unable to lookup user %q: %v`), `authorized_keys_d.Open(usr, true)`,
`Add("coreos-metadata", strings.Join(keys, "\n"), true, true)`, then
`Sync`; `Close` is deferred from right after a successful `Open`, so it
runs on every later path. -/
def writeMetadataKeys (env : KeysEnv) (username : List Char)
    (metadata : Metadata) : KeysResult :=
  if username = [] then ⟨Outcome.ok, [], metadata⟩
  else
    match metadata.sshKeys with
    | none => ⟨Outcome.ok, [], metadata⟩
    | some keys =>
      match env.lookup username with
      | Except.error e =>
        ⟨Outcome.errReturn ("unable to lookup user \"".toList ++ username
            ++ "\": ".toList ++ e),
          [KeyOp.lookup username], metadata⟩
      | Except.ok usr =>
        match env.openErr usr with
        | some e =>
          ⟨Outcome.errReturn e,
            [KeyOp.lookup username, KeyOp.akdOpen usr true], metadata⟩
        | none =>
          match env.addErr with
          | some e =>
            ⟨Outcome.errReturn e,
              [KeyOp.lookup username, KeyOp.akdOpen usr true,
                KeyOp.add "coreos-metadata".toList
                  (List.intercalate ['\n'] keys) true true,
                KeyOp.close], metadata⟩
          | none =>
            match env.syncErr with
            | some e =>
              ⟨Outcome.errReturn e,
                [KeyOp.lookup username, KeyOp.akdOpen usr true,
                  KeyOp.add "coreos-metadata".toList
                    (List.intercalate ['\n'] keys) true true,
                  KeyOp.sync, KeyOp.close], metadata⟩
            | none =>
              ⟨Outcome.ok,
                [KeyOp.lookup username, KeyOp.akdOpen usr true,
                  KeyOp.add "coreos-metadata".toList
                    (List.intercalate ['\n'] keys) true true,
                  KeyOp.sync, KeyOp.close], metadata⟩

/-- Store operations, as opposed to the user-database lookup. -/
def isStoreOp : KeyOp → Bool
  | KeyOp.lookup _ => false
  | _ => true

/-- A concrete user record. -/
def userCore : GoUser := ⟨"core".toList⟩

/-- A key-installer environment in which every collaborator succeeds
and every lookup resolves to `userCore`. -/
def envKeysOk : KeysEnv := ⟨fun _ => Except.ok userCore, fun _ => none, none, none⟩

/-- A key-installer environment whose user lookup always fails. -/
def envKeysBad : KeysEnv :=
  ⟨fun _ => Except.error "no such user".toList, fun _ => none, none, none⟩

/-- Metadata with an empty — but not absent — key list. -/
def mdEmptyKeys : Metadata := ⟨[], some []⟩

/-- Metadata carrying one SSH key. -/
def mdOneKey : Metadata := ⟨[], some ["ssh-ed25519 AAAA key1".toList]⟩

/-- Per-provider fetch oracles (the provider packages are external
collaborators): what `FetchMetadata` of each would return this run. -/
structure FetchEnv where
  azure : Except (List Char) Metadata
  ec2 : Except (List Char) Metadata
  gce : Except (List Char) Metadata
  packet : Except (List Char) Metadata

/-- Result of `fetchMetadata`: a metadata value, a fetch error, or the
`panic("bad provider")` default branch. -/
inductive FetchResult where
  | ok (md : Metadata)
  | fetchErr (e : List Char)
  | panicked
deriving DecidableEq

/-- Lift a provider fetcher's return value into a `FetchResult`. -/
def ofProviderFetch : Except (List Char) Metadata → FetchResult
  | Except.ok md => FetchResult.ok md
  | Except.error e => FetchResult.fetchErr e

/-- `fetchMetadata` from main.go: dispatch on the provider string; the
default branch is `panic("bad provider")`. -/
def fetchMetadata (env : FetchEnv) (provider : List Char) : FetchResult :=
  if provider = "azure".toList then ofProviderFetch env.azure
  else if provider = "ec2".toList then ofProviderFetch env.ec2
  else if provider = "gce".toList then ofProviderFetch env.gce
  else if provider = "packet".toList then ofProviderFetch env.packet
  else FetchResult.panicked

/-- The provider validation switch of `main` (main.go lines 77–82): the
closed set { azure, ec2, gce, packet }. -/
def providerValid (provider : List Char) : Bool :=
  provider = "azure".toList || provider = "ec2".toList
    || provider = "gce".toList || provider = "packet".toList

/-- The parsed command-line flags of main.go. -/
structure Flags where
  cmdline : Bool
  provider : List Char
  attributes : List Char
  sshKeys : List Char
  version : Bool

/-- Environment of one run of `main`: the boot-parameter file contents
(or a read error) and the oracles of the three collaborator groups. -/
structure MainEnv where
  cmdlineContents : Except (List Char) (List Char)
  fetchEnv : FetchEnv
  fsEnv : FsEnv
  keysEnv : KeysEnv

/-- Externally visible operations of one run of `main`. -/
inductive MainOp where
  | fetchAttempt (provider : List Char)
  | fs (op : FsOp)
  | key (op : KeyOp)
deriving DecidableEq

/-- The provider identifier `main` ends up validating: the `--provider`
flag, possibly resolved from the kernel cmdline when `--cmdline` is set
and no provider was given; `none` when reading the cmdline file failed
(exit 2). -/
def effectiveProvider (env : MainEnv) (flags : Flags) : Option (List Char) :=
  if flags.cmdline ∧ flags.provider = [] then
    match env.cmdlineContents with
    | Except.error _ => none
    | Except.ok c => some (parseCmdline c)
  else some flags.provider

/-- `main` from main.go, after flag parsing: the process exit code and
the trace of collaborator operations.  The version branch prints and
returns (exit 0); an unreadable cmdline file or an invalid provider
exits 2 before anything else; then fetch, attribute write and key
install in order, exiting 1 on any failure. -/
def main (env : MainEnv) (flags : Flags) : Nat × List MainOp :=
  if flags.version then (0, [])
  else
    match effectiveProvider env flags with
    | none => (2, [])
    | some p =>
      if ¬ providerValid p then (2, [])
      else
        match fetchMetadata env.fetchEnv p with
        | FetchResult.panicked => (2, [])
        | FetchResult.fetchErr _ => (1, [MainOp.fetchAttempt p])
        | FetchResult.ok md =>
          match (writeMetadataAttributes env.fsEnv flags.attributes md).outcome with
          | Outcome.exited c =>
            (c, MainOp.fetchAttempt p
              :: (writeMetadataAttributes env.fsEnv flags.attributes md).ops.map MainOp.fs)
          | Outcome.errReturn _ =>
            (1, MainOp.fetchAttempt p
              :: (writeMetadataAttributes env.fsEnv flags.attributes md).ops.map MainOp.fs)
          | Outcome.ok =>
            match (writeMetadataKeys env.keysEnv flags.sshKeys md).outcome with
            | Outcome.ok =>
              (0, MainOp.fetchAttempt p
                :: ((writeMetadataAttributes env.fsEnv flags.attributes md).ops.map MainOp.fs
                  ++ (writeMetadataKeys env.keysEnv flags.sshKeys md).ops.map MainOp.key))
            | _ =>
              (1, MainOp.fetchAttempt p
                :: ((writeMetadataAttributes env.fsEnv flags.attributes md).ops.map MainOp.fs
                  ++ (writeMetadataKeys env.keysEnv flags.sshKeys md).ops.map MainOp.key))

/-- A fetch environment in which every provider returns `mdOneKey`. -/
def envFetchOne : FetchEnv :=
  ⟨Except.ok mdOneKey, Except.ok mdOneKey, Except.ok mdOneKey, Except.ok mdOneKey⟩

/-- A complete main environment whose user lookup fails. -/
def envMainBadUser : MainEnv := ⟨Except.ok [], envFetchOne, envAllOk, envKeysBad⟩

/-- A complete main environment in which everything succeeds. -/
def envMainOk : MainEnv := ⟨Except.ok [], envFetchOne, envAllOk, envKeysOk⟩

/-! ## Theorems -/

theorem goSplit_ne_nil (c : Char) (l : List Char) : goSplit c l ≠ [] := by
  cases l with
  | nil => simp [goSplit]
  | cons x xs =>
    simp only [goSplit]
    split <;> simp

theorem goSplit_append (c : Char) (xs ys : List Char) :
    goSplit c (xs ++ c :: ys) = goSplit c xs ++ goSplit c ys := by
  induction xs with
  | nil => simp [goSplit]
  | cons x xs ih =>
    by_cases hx : x = c
    · simp [goSplit, hx, ih]
    · cases hA : goSplit c xs with
      | nil => exact absurd hA (goSplit_ne_nil c xs)
      | cons a as =>
        simp [goSplit, hx, ih, hA]

theorem parseCmdlineArg_eq (oem arg : List Char) :
    parseCmdlineArg oem arg = (eqOccurrenceValue arg).getD oem := by
  unfold parseCmdlineArg eqOccurrenceValue
  by_cases hk : (goSplitN2 '=' (goTrimSpace arg)).headD [] = cmdlineOEMFlag
  · by_cases hl : (goSplitN2 '=' (goTrimSpace arg)).length = 2
    · rw [if_neg (not_not_intro hk), if_pos hl, if_pos ⟨hk, hl⟩, Option.getD_some]
    · rw [if_neg (not_not_intro hk), if_neg hl, if_neg (fun h => hl h.2),
        Option.getD_none]
  · rw [if_pos hk, if_neg (fun h => hk h.1), Option.getD_none]

theorem foldl_parseCmdlineArg (ts : List (List Char)) (a : List Char) :
    ts.foldl parseCmdlineArg a = (ts.filterMap eqOccurrenceValue).getLastD a := by
  induction ts generalizing a with
  | nil => rfl
  | cons t ts ih =>
    cases h : eqOccurrenceValue t with
    | none =>
      rw [List.foldl_cons, parseCmdlineArg_eq, h, Option.getD_none]
      simp only [List.filterMap_cons, h]
      exact ih a
    | some v =>
      rw [List.foldl_cons, parseCmdlineArg_eq, h, Option.getD_some]
      simp only [List.filterMap_cons, h]
      rw [List.getLastD_cons]
      exact ih v

/-- Claim C1 (amended): for every boot-parameter string, `parseCmdline`
returns the value of the last occurrence of `coreos.oem.id` that carries
an `=` separator (occurrences without `=` never update the value), and
the empty string when there is no such occurrence; in particular on
`"foo=1 coreos.oem.id=azure bar coreos.oem.id=ec2"` it returns `"ec2"`. -/
theorem parseCmdline_last_eq_occurrence :
    (∀ cmdline : List Char,
      parseCmdline cmdline =
        ((goSplit ' ' cmdline).filterMap eqOccurrenceValue).getLastD [])
    ∧ parseCmdline "foo=1 coreos.oem.id=azure bar coreos.oem.id=ec2".toList
        = "ec2".toList := by
  constructor
  · intro cmdline
    exact foldl_parseCmdlineArg _ _
  · decide

/-- Claim C1 (counterexample): on `"coreos.oem.id=azure coreos.oem.id"`
the key appears, the last occurrence is bare so its value per the spec's
reading is the empty string, yet `parseCmdline` returns `"azure"` — the
resolver does not return the value of the last occurrence of the key. -/
theorem parseCmdline_not_spec_last_occurrence :
    keyAppears "coreos.oem.id=azure coreos.oem.id".toList = true
    ∧ parseCmdline "coreos.oem.id=azure coreos.oem.id".toList = "azure".toList
    ∧ specLastOccurrenceValue "coreos.oem.id=azure coreos.oem.id".toList = []
    ∧ "azure".toList ≠ ([] : List Char) := by
  decide

/-- Claim C2 (counterexample): when the last occurrence of the key is
the bare token `coreos.oem.id` (no `=`) but an earlier occurrence had a
non-empty value, `parseCmdline` returns that earlier value, not the
empty string: on `"coreos.oem.id=ec2 coreos.oem.id"` it returns `"ec2"`. -/
theorem parseCmdline_bare_last_keeps_value :
    parseCmdline "coreos.oem.id=ec2 coreos.oem.id".toList = "ec2".toList
    ∧ "ec2".toList ≠ ([] : List Char) := by
  decide

/-- Claim C2 (amended): a trailing token `coreos.oem.id=` (trailing
equals, empty value) makes `parseCmdline` return the empty string
regardless of earlier occurrences, whereas a trailing bare token
`coreos.oem.id` (no `=` at all) leaves the result exactly what it was
without that token. -/
theorem parseCmdline_trailing_empty_and_bare :
    ∀ pre : List Char,
      parseCmdline (pre ++ (' ' :: "coreos.oem.id=".toList)) = []
      ∧ parseCmdline (pre ++ (' ' :: "coreos.oem.id".toList))
          = parseCmdline pre := by
  intro pre
  constructor
  · show parseCmdline (pre ++ ' ' :: "coreos.oem.id=".toList) = []
    rw [parseCmdline, goSplit_append, List.foldl_append]
    have h : goSplit ' ' "coreos.oem.id=".toList = ["coreos.oem.id=".toList] := by
      decide
    rw [h, List.foldl_cons, List.foldl_nil, parseCmdlineArg_eq]
    have h2 : eqOccurrenceValue "coreos.oem.id=".toList = some [] := by decide
    rw [h2]
    rfl
  · show parseCmdline (pre ++ ' ' :: "coreos.oem.id".toList) = parseCmdline pre
    rw [parseCmdline, goSplit_append, List.foldl_append]
    have h : goSplit ' ' "coreos.oem.id".toList = ["coreos.oem.id".toList] := by
      decide
    rw [h, List.foldl_cons, List.foldl_nil, parseCmdlineArg_eq]
    have h2 : eqOccurrenceValue "coreos.oem.id".toList = none := by decide
    rw [h2]
    rfl

theorem writeAttrLoop_ok (env : FsEnv) (md : Metadata)
    (hw : ∀ c, env.writeOk c = true) :
    ∀ (pairs : List (List Char × List Char)) (content : List Char)
      (ops : List FsOp),
      writeAttrLoop env md pairs content ops =
        ⟨Outcome.ok,
          ops ++ (attrLines pairs).map (fun l => FsOp.write (l ++ ['\n'])),
          content ++ unlines (attrLines pairs), md⟩ := by
  intro pairs
  induction pairs with
  | nil => intro content ops; simp [writeAttrLoop, attrLines, unlines]
  | cons kv rest ih =>
    intro content ops
    obtain ⟨k, v⟩ := kv
    cases v with
    | nil =>
      have hv : writeVariable env k [] = Except.ok none := rfl
      simp only [writeAttrLoop, hv]
      rw [ih]
      simp [attrLines]
    | cons c v' =>
      have hv : writeVariable env k (c :: v')
          = Except.ok (some ("COREOS_".toList ++ k ++ '=' :: ((c :: v') ++ ['\n']))) := by
        unfold writeVariable
        rw [if_pos (by simp), if_pos (hw _)]
      simp only [writeAttrLoop, hv]
      rw [ih]
      simp [attrLines, unlines, List.append_assoc]

theorem writtenChunks_attributes (env : FsEnv) (p : List Char)
    (md : Metadata) (hp : p ≠ [])
    (hm : env.mkdirOk (pathDir p) = true) (hc : env.createOk p = true)
    (hw : ∀ c, env.writeOk c = true) :
    writtenChunks (writeMetadataAttributes env p md).ops
      = (attrLines md.attributes).map (fun l => l ++ ['\n']) := by
  unfold writeMetadataAttributes
  rw [if_neg hp, if_neg (by simp [hm]), if_neg (by simp [hc]),
    writeAttrLoop_ok env md hw]
  simp only [writtenChunks, List.filterMap_append, List.filterMap_map]
  generalize attrLines md.attributes = ls
  induction ls with
  | nil => rfl
  | cons l ls ih =>
    simp only [List.filterMap_cons, List.map_cons, List.filterMap_nil,
      List.nil_append, Function.comp] at ih ⊢
    rw [ih]

/-- Claim C4: with the path set and every OS call succeeding, the file
content is exactly one line `COREOS_<KEY>=<value>` for each attribute
with non-empty value and no line for empty-valued attributes
(`unlines (attrLines ...)`); in particular for { A: x, B: "", C: y } the
file holds exactly the two lines `COREOS_A=x` and `COREOS_C=y`. -/
theorem writeMetadataAttributes_lines (env : FsEnv) (p : List Char)
    (md : Metadata) (hp : p ≠ [])
    (hm : env.mkdirOk (pathDir p) = true) (hc : env.createOk p = true)
    (hw : ∀ c, env.writeOk c = true) :
    (writeMetadataAttributes env p md).fileContent
      = unlines (attrLines md.attributes)
    ∧ (writeMetadataAttributes envAllOk outPath mdABC).fileContent
      = "COREOS_A=x\nCOREOS_C=y\n".toList := by
  constructor
  · unfold writeMetadataAttributes
    rw [if_neg hp, if_neg (by simp [hm]), if_neg (by simp [hc]),
      writeAttrLoop_ok env md hw]
    exact List.nil_append _
  · decide

/-- Claim C4 (witness): the theorem applied to the all-succeeding
environment, the concrete path and the example map. -/
theorem writeMetadataAttributes_lines_witness :
    (writeMetadataAttributes envAllOk outPath mdABC).fileContent
      = unlines (attrLines mdABC.attributes)
    ∧ (writeMetadataAttributes envAllOk outPath mdABC).fileContent
      = "COREOS_A=x\nCOREOS_C=y\n".toList :=
  writeMetadataAttributes_lines envAllOk outPath mdABC (by decide) rfl rfl
    (fun _ => rfl)

/-- Claim C6 (counterexample): two runs over the same attribute map in
different iteration orders — Go randomises map iteration order — produce
different bytes: { A: x, C: y } iterated as [A, C] versus [C, A]. -/
theorem writeMetadataAttributes_order_dependent :
    List.Perm mdAC.attributes mdCA.attributes
    ∧ (writeMetadataAttributes envAllOk outPath mdAC).fileContent
      ≠ (writeMetadataAttributes envAllOk outPath mdCA).fileContent := by
  constructor
  · decide
  · decide

/-- Claim C6 (amended): the multiset of emitted lines is determined by
the attribute map: for two runs whose iteration orders are permutations
of one another, with all OS calls succeeding, the written chunks are
permutations of each other — the content is fixed only up to line
order. -/
theorem writeMetadataAttributes_lines_perm (env : FsEnv) (p : List Char)
    (md1 md2 : Metadata) (hp : p ≠ [])
    (hm : env.mkdirOk (pathDir p) = true) (hc : env.createOk p = true)
    (hw : ∀ c, env.writeOk c = true)
    (hperm : List.Perm md1.attributes md2.attributes) :
    List.Perm (writtenChunks (writeMetadataAttributes env p md1).ops)
      (writtenChunks (writeMetadataAttributes env p md2).ops) := by
  rw [writtenChunks_attributes env p md1 hp hm hc hw,
    writtenChunks_attributes env p md2 hp hm hc hw]
  exact ((hperm.filterMap _).map _)

/-- Claim C6 (amended, witness): the permutation theorem applied to the
two concrete iteration orders of { A: x, C: y }. -/
theorem writeMetadataAttributes_lines_perm_witness :
    List.Perm (writtenChunks (writeMetadataAttributes envAllOk outPath mdAC).ops)
      (writtenChunks (writeMetadataAttributes envAllOk outPath mdCA).ops) :=
  writeMetadataAttributes_lines_perm envAllOk outPath mdAC mdCA (by decide)
    rfl rfl (fun _ => rfl) (by decide)

/-- Claim C7: called with the unset (empty) path, the materializer
performs no filesystem operations, writes nothing, returns success and
leaves the metadata untouched. -/
theorem writeMetadataAttributes_unset_path (env : FsEnv) (md : Metadata) :
    writeMetadataAttributes env [] md = ⟨Outcome.ok, [], [], md⟩ := rfl

theorem writeMetadataKeys_empty_list_ops (env : KeysEnv) (username : List Char)
    (md : Metadata) (hu : username ≠ []) (hk : md.sshKeys = some [])
    (usr : GoUser) (hl : env.lookup username = Except.ok usr)
    (ho : env.openErr usr = none) :
    KeyOp.lookup username ∈ (writeMetadataKeys env username md).ops
    ∧ KeyOp.akdOpen usr true ∈ (writeMetadataKeys env username md).ops
    ∧ KeyOp.add "coreos-metadata".toList [] true true
        ∈ (writeMetadataKeys env username md).ops := by
  have hi : List.intercalate ['\n'] ([] : List (List Char)) = [] := rfl
  cases ha : env.addErr with
  | some e =>
    have hres : writeMetadataKeys env username md
        = ⟨Outcome.errReturn e,
            [KeyOp.lookup username, KeyOp.akdOpen usr true,
              KeyOp.add "coreos-metadata".toList [] true true,
              KeyOp.close], md⟩ := by
      unfold writeMetadataKeys
      rw [if_neg hu, hk]
      simp only [hl, ho, ha, hi]
    rw [hres]
    exact ⟨by simp, by simp, by simp⟩
  | none =>
    cases hs : env.syncErr with
    | some e =>
      have hres : writeMetadataKeys env username md
          = ⟨Outcome.errReturn e,
              [KeyOp.lookup username, KeyOp.akdOpen usr true,
                KeyOp.add "coreos-metadata".toList [] true true,
                KeyOp.sync, KeyOp.close], md⟩ := by
        unfold writeMetadataKeys
        rw [if_neg hu, hk]
        simp only [hl, ho, ha, hs, hi]
      rw [hres]
      exact ⟨by simp, by simp, by simp⟩
    | none =>
      have hres : writeMetadataKeys env username md
          = ⟨Outcome.ok,
              [KeyOp.lookup username, KeyOp.akdOpen usr true,
                KeyOp.add "coreos-metadata".toList [] true true,
                KeyOp.sync, KeyOp.close], md⟩ := by
        unfold writeMetadataKeys
        rw [if_neg hu, hk]
        simp only [hl, ho, ha, hs, hi]
      rw [hres]
      exact ⟨by simp, by simp, by simp⟩

/-- Claim C3: the installer returns success having performed no store
operation exactly when the username is unset or the keys are absent
(`nil`); and with a set username and an empty — but non-absent — key
list it still resolves the user, opens the store, and replaces the
`coreos-metadata` block with empty content. -/
theorem writeMetadataKeys_noop_iff (env : KeysEnv) (username : List Char)
    (md : Metadata) :
    (((writeMetadataKeys env username md).outcome = Outcome.ok
        ∧ (writeMetadataKeys env username md).ops.filter isStoreOp = [])
      ↔ (username = [] ∨ md.sshKeys = none))
    ∧ (username ≠ [] → md.sshKeys = some [] →
        ∀ usr, env.lookup username = Except.ok usr → env.openErr usr = none →
          KeyOp.lookup username ∈ (writeMetadataKeys env username md).ops
          ∧ KeyOp.akdOpen usr true ∈ (writeMetadataKeys env username md).ops
          ∧ KeyOp.add "coreos-metadata".toList [] true true
              ∈ (writeMetadataKeys env username md).ops) := by
  constructor
  · by_cases hu : username = []
    · subst hu
      have hres : writeMetadataKeys env [] md = ⟨Outcome.ok, [], md⟩ := rfl
      rw [hres]
      simp
    · cases hk : md.sshKeys with
      | none =>
        have hres : writeMetadataKeys env username md = ⟨Outcome.ok, [], md⟩ := by
          unfold writeMetadataKeys
          rw [if_neg hu, hk]
        rw [hres]
        simp
      | some keys =>
        cases hl : env.lookup username with
        | error e =>
          have hres : writeMetadataKeys env username md
              = ⟨Outcome.errReturn ("unable to lookup user \"".toList ++ username
                  ++ "\": ".toList ++ e), [KeyOp.lookup username], md⟩ := by
            unfold writeMetadataKeys
            rw [if_neg hu, hk]
            simp only [hl]
          rw [hres]
          simp [hu]
        | ok usr =>
          cases ho : env.openErr usr with
          | some e =>
            have hres : writeMetadataKeys env username md
                = ⟨Outcome.errReturn e,
                    [KeyOp.lookup username, KeyOp.akdOpen usr true], md⟩ := by
              unfold writeMetadataKeys
              rw [if_neg hu, hk]
              simp only [hl, ho]
            rw [hres]
            simp [hu]
          | none =>
            cases ha : env.addErr with
            | some e =>
              have hres : writeMetadataKeys env username md
                  = ⟨Outcome.errReturn e,
                      [KeyOp.lookup username, KeyOp.akdOpen usr true,
                        KeyOp.add "coreos-metadata".toList
                          (List.intercalate ['\n'] keys) true true,
                        KeyOp.close], md⟩ := by
                unfold writeMetadataKeys
                rw [if_neg hu, hk]
                simp only [hl, ho, ha]
              rw [hres]
              simp [hu]
            | none =>
              cases hs : env.syncErr with
              | some e =>
                have hres : writeMetadataKeys env username md
                    = ⟨Outcome.errReturn e,
                        [KeyOp.lookup username, KeyOp.akdOpen usr true,
                          KeyOp.add "coreos-metadata".toList
                            (List.intercalate ['\n'] keys) true true,
                          KeyOp.sync, KeyOp.close], md⟩ := by
                  unfold writeMetadataKeys
                  rw [if_neg hu, hk]
                  simp only [hl, ho, ha, hs]
                rw [hres]
                simp [hu]
              | none =>
                have hres : writeMetadataKeys env username md
                    = ⟨Outcome.ok,
                        [KeyOp.lookup username, KeyOp.akdOpen usr true,
                          KeyOp.add "coreos-metadata".toList
                            (List.intercalate ['\n'] keys) true true,
                          KeyOp.sync, KeyOp.close], md⟩ := by
                  unfold writeMetadataKeys
                  rw [if_neg hu, hk]
                  simp only [hl, ho, ha, hs]
                rw [hres]
                simp [hu, isStoreOp]
  · intro hu hk usr hl ho
    exact writeMetadataKeys_empty_list_ops env username md hu hk usr hl ho

/-- Claim C3 (witness): with username `core`, an all-succeeding store
and an empty non-absent key list, the installer looks the user up,
opens the store, and adds the block with empty content. -/
theorem writeMetadataKeys_noop_iff_witness :
    KeyOp.lookup "core".toList
      ∈ (writeMetadataKeys envKeysOk "core".toList mdEmptyKeys).ops
    ∧ KeyOp.akdOpen userCore true
      ∈ (writeMetadataKeys envKeysOk "core".toList mdEmptyKeys).ops
    ∧ KeyOp.add "coreos-metadata".toList [] true true
      ∈ (writeMetadataKeys envKeysOk "core".toList mdEmptyKeys).ops :=
  (writeMetadataKeys_noop_iff envKeysOk "core".toList mdEmptyKeys).2
    (by decide) rfl userCore rfl rfl

/-- Claim C8: with a set username and non-absent keys, a failing user
lookup makes the installer return the error
`unable to lookup user "<name>": <cause>` — naming the user — with no
store operation performed; and whenever the installer fails inside a
run of `main` that got past fetch and attribute writing, the process
exits with code 1. -/
theorem writeMetadataKeys_unknown_user (env : KeysEnv) (username : List Char)
    (md : Metadata) (keys : List (List Char)) (e : List Char)
    (hu : username ≠ []) (hk : md.sshKeys = some keys)
    (hl : env.lookup username = Except.error e) :
    (writeMetadataKeys env username md).outcome
      = Outcome.errReturn ("unable to lookup user \"".toList ++ username
          ++ "\": ".toList ++ e)
    ∧ (writeMetadataKeys env username md).ops = [KeyOp.lookup username]
    ∧ (∀ op ∈ (writeMetadataKeys env username md).ops, isStoreOp op = false)
    ∧ (∀ (menv : MainEnv) (flags : Flags) (p : List Char),
        flags.version = false →
        effectiveProvider menv flags = some p →
        providerValid p = true →
        fetchMetadata menv.fetchEnv p = FetchResult.ok md →
        (writeMetadataAttributes menv.fsEnv flags.attributes md).outcome
          = Outcome.ok →
        menv.keysEnv = env → flags.sshKeys = username →
        (main menv flags).1 = 1) := by
  have hres : writeMetadataKeys env username md
      = ⟨Outcome.errReturn ("unable to lookup user \"".toList ++ username
          ++ "\": ".toList ++ e), [KeyOp.lookup username], md⟩ := by
    unfold writeMetadataKeys
    rw [if_neg hu, hk]
    simp only [hl]
  refine ⟨by rw [hres], by rw [hres], ?_, ?_⟩
  · rw [hres]
    simp [isStoreOp]
  · intro menv flags p hv hp hpv hf ha hke hsk
    simp [main, hv, hp, hpv, hf, ha, hke, hsk, hres]

/-- Claim C8 (witness): the theorem applied to a concrete failing
lookup, and to a full `main` run with provider `ec2`, no attributes
path, and `--ssh-keys=core`. -/
theorem writeMetadataKeys_unknown_user_witness :
    (writeMetadataKeys envKeysBad "core".toList mdOneKey).outcome
      = Outcome.errReturn ("unable to lookup user \"".toList ++ "core".toList
          ++ "\": ".toList ++ "no such user".toList)
    ∧ (main envMainBadUser ⟨false, "ec2".toList, [], "core".toList, false⟩).1 = 1 :=
  ⟨(writeMetadataKeys_unknown_user envKeysBad "core".toList mdOneKey
      ["ssh-ed25519 AAAA key1".toList] "no such user".toList (by decide) rfl rfl).1,
    (writeMetadataKeys_unknown_user envKeysBad "core".toList mdOneKey
      ["ssh-ed25519 AAAA key1".toList] "no such user".toList (by decide) rfl rfl).2.2.2
      envMainBadUser ⟨false, "ec2".toList, [], "core".toList, false⟩ "ec2".toList
      rfl (by decide) (by decide) (by decide) (by decide) rfl rfl⟩

theorem writeAttrLoop_metadata (env : FsEnv) (md : Metadata) :
    ∀ (pairs : List (List Char × List Char)) (content : List Char)
      (ops : List FsOp),
      (writeAttrLoop env md pairs content ops).metadata = md := by
  intro pairs
  induction pairs with
  | nil => intro content ops; rfl
  | cons kv rest ih =>
    intro content ops
    obtain ⟨k, v⟩ := kv
    unfold writeAttrLoop
    cases writeVariable env k v with
    | error e => rfl
    | ok o =>
      cases o with
      | none => exact ih content ops
      | some chunk => exact ih _ _

theorem writeMetadataAttributes_metadata (env : FsEnv) (p : List Char)
    (md : Metadata) :
    (writeMetadataAttributes env p md).metadata = md := by
  unfold writeMetadataAttributes
  by_cases h1 : p = []
  · rw [if_pos h1]
  · rw [if_neg h1]
    by_cases h2 : env.mkdirOk (pathDir p) = true
    · rw [if_neg (not_not_intro h2)]
      by_cases h3 : env.createOk p = true
      · rw [if_neg (not_not_intro h3)]
        exact writeAttrLoop_metadata env md _ _ _
      · rw [if_pos h3]
    · rw [if_pos h2]

theorem writeMetadataKeys_metadata (env : KeysEnv) (username : List Char)
    (md : Metadata) :
    (writeMetadataKeys env username md).metadata = md := by
  unfold writeMetadataKeys
  split
  · rfl
  · split
    · rfl
    · split
      · rfl
      · split
        · rfl
        · split
          · rfl
          · split
            · rfl
            · rfl

/-- Claim C9: neither materializer mutates the metadata value: each
hands back exactly the metadata it was given, on success and on every
error or exit path, for all oracle behaviours. -/
theorem metadata_not_mutated (fenv : FsEnv) (kenv : KeysEnv)
    (p username : List Char) (md : Metadata) :
    (writeMetadataAttributes fenv p md).metadata = md
    ∧ (writeMetadataKeys kenv username md).metadata = md :=
  ⟨writeMetadataAttributes_metadata fenv p md,
    writeMetadataKeys_metadata kenv username md⟩

/-- Claim C5: whenever the resolved provider identifier lies outside the
closed set { azure, ec2, gce, packet } — including the empty string —
`main` exits with code 2 having attempted no fetch and performed no
filesystem or key operation (empty trace). -/
theorem main_invalid_provider (env : MainEnv) (flags : Flags)
    (p : List Char) (hv : flags.version = false)
    (hp : effectiveProvider env flags = some p)
    (hbad : providerValid p = false) :
    main env flags = (2, []) := by
  simp [main, hv, hp, hbad]

/-- Claim C5 (witness): `--provider=foo` exits 2 with an empty trace. -/
theorem main_invalid_provider_witness :
    main envMainOk ⟨false, "foo".toList, [], [], false⟩ = (2, []) :=
  main_invalid_provider envMainOk ⟨false, "foo".toList, [], [], false⟩
    "foo".toList rfl rfl (by decide)

/-- Claim C10: under the validation `main` performs before calling —
the identifier is in the closed set — the default
`panic("bad provider")` branch of `fetchMetadata` is unreachable: the
result is never `panicked`. -/
theorem fetchMetadata_no_panic (env : FetchEnv) (p : List Char)
    (h : providerValid p = true) :
    fetchMetadata env p ≠ FetchResult.panicked := by
  have h' : ((p = "azure".toList ∨ p = "ec2".toList) ∨ p = "gce".toList)
      ∨ p = "packet".toList := by
    simpa [providerValid, Bool.or_eq_true, decide_eq_true_eq] using h
  rcases h' with ((h' | h') | h') | h'
  · subst h'
    unfold fetchMetadata
    rw [if_pos rfl]
    cases env.azure <;> simp [ofProviderFetch]
  · subst h'
    unfold fetchMetadata
    rw [if_neg (by decide), if_pos rfl]
    cases env.ec2 <;> simp [ofProviderFetch]
  · subst h'
    unfold fetchMetadata
    rw [if_neg (by decide), if_neg (by decide), if_pos rfl]
    cases env.gce <;> simp [ofProviderFetch]
  · subst h'
    unfold fetchMetadata
    rw [if_neg (by decide), if_neg (by decide), if_neg (by decide), if_pos rfl]
    cases env.packet <;> simp [ofProviderFetch]

/-- Claim C10 (witness): `ec2` is valid and its fetch never reaches the
panicking default branch. -/
theorem fetchMetadata_no_panic_witness :
    providerValid "ec2".toList = true
    ∧ fetchMetadata envFetchOne "ec2".toList ≠ FetchResult.panicked :=
  ⟨by decide, fetchMetadata_no_panic envFetchOne "ec2".toList (by decide)⟩

end CoreosMetadata
